import Mathlib

/-!
Verification development for the zettelkasten tree-store engine: a shallow
embedding of the Folder/Zettel/File data model and of the HTTP handler
functions in `zettelkasten/views.py`, `zettelkasten/models.py` and
`graph/views.py`, with theorems settling the frozen behavioural claims.

Modelling conventions: database rows are records in lists (list order stands
in for the query ordering); blobs and their UTF-8 decodings are both
represented as `String`; request-handler exceptions that the handlers catch
are modelled as error responses; the unbounded `while` walks of the source
are modelled with explicit fuel, with fuel exhaustion denoting divergence.
-/

/-- A `Folder` row: `id`, `name`, optional `parent` folder id, `is_root`
flag, owning `author` (user id). -/
structure Folder where
  id : Nat
  name : String
  parent : Option Nat
  isRoot : Bool
  author : Nat
deriving Repr, DecidableEq

/-- A `Zettel` row: `id`, `name`, containing `folder` id, `author`,
markdown `content`, `is_public` flag. -/
structure Zettel where
  id : Nat
  name : String
  folder : Nat
  author : Nat
  content : String
  isPublic : Bool
deriving Repr, DecidableEq

/-- A `File` row: `id`, `name`, optional containing `folder` id, `author`,
and the stored blob (bytes, represented as a string). -/
structure FileRec where
  id : Nat
  name : String
  folder : Option Nat
  author : Nat
  blob : String
deriving Repr, DecidableEq

/-- The relational state: all Folder/Zettel/File rows plus the next fresh
primary key. -/
structure DB where
  folders : List Folder
  zettels : List Zettel
  files : List FileRec
  nextId : Nat
deriving Repr, DecidableEq

/-- A JSON-style handler response: `success` flag, HTTP status, message or
error text, and the optional `name`/`id` fields some handlers return. -/
structure Resp where
  success : Bool
  status : Nat
  msg : String
  rname : Option String
  rid : Option Nat
deriving Repr, DecidableEq

/-- An error `JsonResponse` with the given status and message. -/
def errResp (status : Nat) (msg : String) : Resp :=
  ⟨false, status, msg, none, none⟩

/-- A success `JsonResponse` carrying only a message. -/
def okMsgResp (msg : String) : Resp :=
  ⟨true, 200, msg, none, none⟩

/-- A success `JsonResponse` carrying the id and name of a created or
renamed entity. -/
def okEntityResp (id : Nat) (nm : String) : Resp :=
  ⟨true, 200, "", some nm, some id⟩

/-- Look up a folder row by primary key. -/
def findFolder (db : DB) (fid : Nat) : Option Folder :=
  db.folders.find? (fun f => f.id = fid)

/-- `get_object_or_404(Folder, id=fid, author=u)`. -/
def findOwnedFolder (db : DB) (u fid : Nat) : Option Folder :=
  db.folders.find? (fun f => f.id = fid && f.author = u)

/-- `get_object_or_404(Zettel, id=zid, author=u)`. -/
def findOwnedZettel (db : DB) (u zid : Nat) : Option Zettel :=
  db.zettels.find? (fun z => z.id = zid && z.author = u)

/-- `get_object_or_404(File, id=fid, author=u)`. -/
def findOwnedFile (db : DB) (u fid : Nat) : Option FileRec :=
  db.files.find? (fun f => f.id = fid && f.author = u)

/-- `Folder.get_user_root`: find the `(author=u, is_root=True)` folder,
creating `{name: "root", parent: None}` if absent (`get_or_create`). -/
def getUserRoot (db : DB) (u : Nat) : Folder × DB :=
  match db.folders.find? (fun f => f.author = u && f.isRoot) with
  | some f => (f, db)
  | none =>
      let f : Folder := ⟨db.nextId, "root", none, true, u⟩
      (f, { db with folders := db.folders ++ [f], nextId := db.nextId + 1 })

/-- Decimal digits of `n`, least significant first, computed with fuel
(`fuel ≥ n` always suffices). -/
def natDigitsRevAux : Nat → Nat → List Nat
  | 0, n => [n % 10]
  | fuel + 1, n => if n < 10 then [n] else n % 10 :: natDigitsRevAux fuel (n / 10)

/-- Decimal digits of `n`, least significant first (the digit sequence of
Python `str(n)` reversed). -/
def natDigitsRev (n : Nat) : List Nat :=
  natDigitsRevAux n n

/-- Python `str(n)` for a natural number: decimal representation. -/
def natStr (n : Nat) : String :=
  String.mk ((natDigitsRev n).reverse.map Nat.digitChar)

/-- Does the character list start with the given pattern? -/
def prefixAt : List Char → List Char → Bool
  | [], _ => true
  | _ :: _, [] => false
  | a :: as, b :: bs => a = b && prefixAt as bs

/-- Scan of Python's substring containment test. -/
def pyInAux (needle : List Char) : List Char → Bool
  | [] => prefixAt needle []
  | c :: cs => prefixAt needle (c :: cs) || pyInAux needle cs

/-- Python's substring containment test `needle in hay`. -/
def pyIn (needle hay : String) : Bool :=
  pyInAux needle.data hay.data

/-- Python's `str.replace`: scan left to right, replacing each
non-overlapping occurrence of a non-empty `pat` with `repl`; the fuel is
the length of the scanned text, which every step consumes. -/
def replaceAllAux (pat repl : List Char) : Nat → List Char → List Char
  | 0, s => s
  | fuel + 1, s =>
      match s with
      | [] => []
      | c :: cs =>
          if prefixAt pat (c :: cs) && pat.length > 0 then
            repl ++ replaceAllAux pat repl fuel (cs.drop (pat.length - 1))
          else c :: replaceAllAux pat repl fuel cs

/-- `s.replace(pat, repl)` on strings. -/
def pyReplace (s pat repl : String) : String :=
  String.mk (replaceAllAux pat.data repl.data s.data.length s.data)

/-- Python whitespace for `str.strip()`. -/
def pySpace (c : Char) : Bool :=
  c = ' ' || c = '\t' || c = '\n' || c = '\r' || c = '\x0b' || c = '\x0c'

/-- Python `str.strip()`: drop whitespace from both ends. -/
def pyStrip (s : String) : String :=
  String.mk (((s.data.dropWhile pySpace).reverse.dropWhile pySpace).reverse)

/-- Accumulating loop of `str.split('/')`. -/
def splitSlashAux (acc : List Char) : List Char → List String
  | [] => [String.mk acc.reverse]
  | c :: cs =>
      if c = '/' then String.mk acc.reverse :: splitSlashAux [] cs
      else splitSlashAux (c :: acc) cs

/-- Python `str.split('/')`. -/
def pySplitSlash (s : String) : List String :=
  splitSlashAux [] s.data

/-- The candidate default name `"{pre}-{n}"` tried by the allocation loops
of `create_zettel` / `create_folder`. -/
def mkName (pre : String) (n : Nat) : String :=
  pre ++ "-" ++ natStr n

/-- The `while ... exists(): name += 1` loop of `create_zettel` and
`create_folder`, with explicit fuel; returns the chosen counter. -/
def allocAux (taken : List String) (pre : String) : Nat → Nat → Option Nat
  | 0, _ => none
  | fuel + 1, n =>
      if mkName pre n ∈ taken then allocAux taken pre fuel (n + 1) else some n

/-- Default-name allocation: run the counter loop from 0 with enough fuel
for any state in which it terminates. -/
def allocDefaultName (taken : List String) (pre : String) : Option Nat :=
  allocAux taken pre (taken.length + 1) 0

/-- The zettel names present in the scope `(author=u, folder=tid)` — the
set scanned by `create_zettel`'s name loop. -/
def scopedZettelNames (db : DB) (u tid : Nat) : List String :=
  (db.zettels.filter (fun z => z.author = u && z.folder = tid)).map (fun z => z.name)

/-- The folder names present in the scope `(author=u, parent=tid)` — the
set scanned by `create_folder`'s name loop. -/
def scopedFolderNames (db : DB) (u tid : Nat) : List String :=
  (db.folders.filter (fun f => f.author = u && f.parent = some tid)).map (fun f => f.name)

/-- The file names present in the scope `(author=u, folder=tid)` (the
`File` uniqueness scope). -/
def scopedFileNames (db : DB) (u tid : Nat) : List String :=
  (db.files.filter (fun f => f.author = u && f.folder = some tid)).map (fun f => f.name)

/-- `create_zettel(request, folder_id)`: resolve the target folder (root if
absent), allocate `new-zettel-{n}`, insert the row. -/
def createZettel (db : DB) (u : Nat) (folderId : Option Nat) : Resp × DB :=
  let tdb : Option (Folder × DB) :=
    match folderId with
    | none => some (getUserRoot db u)
    | some fid => (findOwnedFolder db u fid).map (fun f => (f, db))
  match tdb with
  | none => (errResp 400 ("No Folder matches the given query."), db)
  | some (t, db1) =>
      match allocDefaultName (scopedZettelNames db1 u t.id) ("new-zettel") with
      | none => (errResp 400 ("allocation loop did not finish"), db1)
      | some n =>
          let nm := mkName ("new-zettel") n
          let z : Zettel := ⟨db1.nextId, nm, t.id, u, "", false⟩
          (okEntityResp db1.nextId nm,
           { db1 with zettels := db1.zettels ++ [z], nextId := db1.nextId + 1 })

/-- One step of the foreign-key cascade: extend a set of doomed folder ids
by the folders whose parent is already doomed. -/
def growFolderIds (db : DB) (s : List Nat) : List Nat :=
  s ++ (db.folders.filter
    (fun f => f.id ∉ s && match f.parent with
              | some p => decide (p ∈ s)
              | none => false)).map (fun f => f.id)

/-- Iterated cascade closure of a set of doomed folder ids. -/
def cascadeIds (db : DB) : Nat → List Nat → List Nat
  | 0, s => s
  | n + 1, s => cascadeIds db n (growFolderIds db s)

/-- Deleting a set of folders with `on_delete=CASCADE` semantics: close the
set under the child relation, then drop the doomed folders and every
zettel/file contained in one of them. -/
def deleteFolders (db : DB) (init : List Nat) : DB :=
  let doomed := cascadeIds db db.folders.length init
  { db with
    folders := db.folders.filter (fun f => f.id ∉ doomed),
    zettels := db.zettels.filter (fun z => z.folder ∉ doomed),
    files := db.files.filter (fun f => match f.folder with
             | some x => decide (x ∉ doomed)
             | none => true) }

/-- `Folder.objects.filter(author=u).delete()`: the full-tenant wipe taken
by `delete_item` when the root folder is targeted. -/
def wipeUser (db : DB) (u : Nat) : DB :=
  deleteFolders db ((db.folders.filter (fun f => f.author = u)).map (fun f => f.id))

/-- `delete_item(request, item_type, item_id)`: root folders trigger the
full wipe; otherwise the single owned entity is deleted (with cascade for
folders). -/
def deleteItem (db : DB) (u : Nat) (itemType : String) (itemId : Nat) : Resp × DB :=
  if itemType = "folder" then
    let (root, db1) := getUserRoot db u
    if itemId = root.id then
      (okMsgResp ("Root folder and all its contents deleted successfully"), wipeUser db1 u)
    else
      match findOwnedFolder db1 u itemId with
      | none => (errResp 400 ("No Folder matches the given query."), db1)
      | some f => (okMsgResp "", deleteFolders db1 [f.id])
  else if itemType = "zettel" then
    match findOwnedZettel db u itemId with
    | none => (errResp 400 ("No Zettel matches the given query."), db)
    | some z => (okMsgResp "", { db with zettels := db.zettels.filter (fun w => w.id ≠ z.id) })
  else if itemType = "file" then
    match findOwnedFile db u itemId with
    | none => (errResp 400 ("No File matches the given query."), db)
    | some f => (okMsgResp "", { db with files := db.files.filter (fun w => w.id ≠ f.id) })
  else (errResp 400 ("Invalid type"), db)

/-- Does another zettel (a different row) with this name exist in the
uniqueness scope `(author, folder, name)`? The check Django's
`unique_together` performs when a zettel row is saved. -/
def zettelNameTaken (db : DB) (u folderId : Nat) (nm : String) (excludeId : Nat) : Bool :=
  db.zettels.any (fun z => z.author = u && z.folder = folderId && z.name = nm && z.id ≠ excludeId)

/-- `unique_together` check for files: `(author, folder, name)`. -/
def fileNameTaken (db : DB) (u : Nat) (folderId : Option Nat) (nm : String) (excludeId : Nat) : Bool :=
  db.files.any (fun f => f.author = u && f.folder = folderId && f.name = nm && f.id ≠ excludeId)

/-- `unique_together` check for folders: `(author, name, parent)`. -/
def folderNameTaken (db : DB) (u : Nat) (parentId : Option Nat) (nm : String) (excludeId : Nat) : Bool :=
  db.folders.any (fun f => f.author = u && f.parent = parentId && f.name = nm && f.id ≠ excludeId)

/-- `update_item_name` restricted to a zettel row: save the new name unless
the uniqueness constraint rejects it. -/
def renameZettel (db : DB) (u itemId : Nat) (nm : String) : Resp × DB :=
  match findOwnedZettel db u itemId with
  | none => (errResp 400 ("No Zettel matches the given query."), db)
  | some z =>
      if zettelNameTaken db u z.folder nm z.id then
        (errResp 400 ("UNIQUE constraint failed"), db)
      else
        (okEntityResp z.id nm,
         { db with zettels := db.zettels.map (fun w => if w.id = itemId then { w with name := nm } else w) })

/-- `update_item_name` restricted to a file row. -/
def renameFile (db : DB) (u itemId : Nat) (nm : String) : Resp × DB :=
  match findOwnedFile db u itemId with
  | none => (errResp 400 ("No File matches the given query."), db)
  | some f =>
      if fileNameTaken db u f.folder nm f.id then
        (errResp 400 ("UNIQUE constraint failed"), db)
      else
        (okEntityResp f.id nm,
         { db with files := db.files.map (fun w => if w.id = itemId then { w with name := nm } else w) })

/-- `update_item_name` restricted to a folder row. -/
def renameFolder (db : DB) (u itemId : Nat) (nm : String) : Resp × DB :=
  match findOwnedFolder db u itemId with
  | none => (errResp 400 ("No Folder matches the given query."), db)
  | some f =>
      if folderNameTaken db u f.parent nm f.id then
        (errResp 400 ("UNIQUE constraint failed"), db)
      else
        (okEntityResp f.id nm,
         { db with folders := db.folders.map (fun w => if w.id = itemId then { w with name := nm } else w) })

/-- `update_item_name(request, item_type, item_id)`: the new name is the
request's `new_name` (default `""`) stripped of surrounding whitespace; an
empty result is rejected, then the per-type rename is applied. -/
def updateItemName (db : DB) (u : Nat) (itemType : String) (itemId : Nat)
    (newNameRaw : Option String) : Resp × DB :=
  if itemType = "zettel" || itemType = "file" || itemType = "folder" then
    let nm := pyStrip (newNameRaw.getD "")
    if nm = "" then (errResp 400 ("Name cannot be empty"), db)
    else if itemType = "zettel" then renameZettel db u itemId nm
    else if itemType = "file" then renameFile db u itemId nm
    else renameFolder db u itemId nm
  else (errResp 400 ("Invalid type"), db)

/-- Name of the row `(itemType, itemId)` currently stored in the database. -/
def nameOf (db : DB) (itemType : String) (itemId : Nat) : Option String :=
  if itemType = "zettel" then (db.zettels.find? (fun z => z.id = itemId)).map (fun z => z.name)
  else if itemType = "file" then (db.files.find? (fun f => f.id = itemId)).map (fun f => f.name)
  else if itemType = "folder" then (db.folders.find? (fun f => f.id = itemId)).map (fun f => f.name)
  else none

/-- Would saving the trimmed name `nm` on row `(itemType, itemId)` violate
the row's uniqueness scope? (`false` when the row does not exist.) -/
def renameConflict (db : DB) (u : Nat) (itemType : String) (itemId : Nat) (nm : String) : Bool :=
  if itemType = "zettel" then
    match findOwnedZettel db u itemId with
    | some z => zettelNameTaken db u z.folder nm z.id
    | none => false
  else if itemType = "file" then
    match findOwnedFile db u itemId with
    | some f => fileNameTaken db u f.folder nm f.id
    | none => false
  else if itemType = "folder" then
    match findOwnedFolder db u itemId with
    | some f => folderNameTaken db u f.parent nm f.id
    | none => false
  else false

/-- The `while current: ... current = current.parent` cycle check of
`move_item`, with fuel; `some true` means the moved folder's id was seen on
the target's ancestor chain, `none` means the walk ran out of fuel (the
source loop would still be running). -/
def cycleLoop (db : DB) (objId : Nat) : Nat → Option Nat → Option Bool
  | _, none => some false
  | 0, some _ => none
  | fuel + 1, some fid =>
      if fid = objId then some true
      else
        match findFolder db fid with
        | none => some false
        | some f => cycleLoop db objId fuel f.parent

/-- The ancestor chain of folder ids starting at `start` (the ids the
`move_item` walk visits), computed with the standard fuel. -/
def ancWalk (db : DB) : Nat → Option Nat → List Nat
  | _, none => []
  | 0, some _ => []
  | fuel + 1, some fid =>
      match findFolder db fid with
      | none => []
      | some f => fid :: ancWalk db fuel f.parent

/-- The ancestor chain of a folder id, target-first (the folder itself is
its first element). -/
def ancestorChain (db : DB) (start : Nat) : List Nat :=
  ancWalk db (db.folders.length + 1) (some start)

/-- `move_item(request, item_type, item_id)`. The result is `none` when
the handler diverges (the cycle-check walk loops forever), otherwise the
response and the updated database. -/
def moveItem (db : DB) (u : Nat) (itemType : String) (itemId : Nat)
    (targetFolderId : Option Nat) : Option (Resp × DB) :=
  if itemType = "folder" || itemType = "zettel" || itemType = "file" then
    match targetFolderId with
    | none => some (errResp 400 ("Target folder ID is required"), db)
    | some tid =>
        if tid = 0 then some (errResp 400 ("Target folder ID is required"), db)
        else if itemType = "folder" then
          match findOwnedFolder db u itemId with
          | none => some (errResp 400 ("No Folder matches the given query."), db)
          | some obj =>
              match findOwnedFolder db u tid with
              | none => some (errResp 400 ("No Folder matches the given query."), db)
              | some t =>
                  match cycleLoop db obj.id (db.folders.length + 1) (some t.id) with
                  | none => none
                  | some true =>
                      some (errResp 400 ("Cannot move folder into itself or its descendants"), db)
                  | some false =>
                      if folderNameTaken db u (some t.id) obj.name obj.id then
                        some (errResp 400 ("UNIQUE constraint failed"), db)
                      else
                        let fs := db.folders.map
                          (fun w => if w.id = obj.id then { w with parent := some t.id } else w)
                        some (okMsgResp ("Folder moved successfully"), { db with folders := fs })
        else if itemType = "zettel" then
          match findOwnedZettel db u itemId with
          | none => some (errResp 400 ("No Zettel matches the given query."), db)
          | some obj =>
              match findOwnedFolder db u tid with
              | none => some (errResp 400 ("No Folder matches the given query."), db)
              | some t =>
                  if zettelNameTaken db u t.id obj.name obj.id then
                    some (errResp 400 ("UNIQUE constraint failed"), db)
                  else
                    let zs := db.zettels.map
                      (fun w => if w.id = obj.id then { w with folder := t.id } else w)
                    some (okMsgResp ("Zettel moved successfully"), { db with zettels := zs })
        else
          match findOwnedFile db u itemId with
          | none => some (errResp 400 ("No File matches the given query."), db)
          | some obj =>
              match findOwnedFolder db u tid with
              | none => some (errResp 400 ("No Folder matches the given query."), db)
              | some t =>
                  if fileNameTaken db u (some t.id) obj.name obj.id then
                    some (errResp 400 ("UNIQUE constraint failed"), db)
                  else
                    let fls := db.files.map
                      (fun w => if w.id = obj.id then { w with folder := some t.id } else w)
                    some (okMsgResp ("File moved successfully"), { db with files := fls })
  else some (errResp 400 ("Invalid type"), db)

/-- `update_zettel(request, zettel_id)`: reject an absent or empty
`content` field, otherwise store the new content on the row. -/
def updateZettel (db : DB) (u zid : Nat) (content : Option String) : Resp × DB :=
  match findOwnedZettel db u zid with
  | none => (errResp 404 ("No Zettel matches the given query."), db)
  | some _ =>
      match content with
      | none => (errResp 400 ("Content is required"), db)
      | some s =>
          if s = "" then (errResp 400 ("Content is required"), db)
          else
            let zs := db.zettels.map
              (fun w => if w.id = zid then { w with content := s } else w)
            (okMsgResp ("Zettel updated successfully"), { db with zettels := zs })

/-- The accumulator loop of `Folder.get_path`: follow `parent` links,
collecting names root-first; `none` when the fuel runs out with the walk
still going (the source loop would still be running). -/
def getPathAux (db : DB) : Nat → Option Nat → List String → Option (List String)
  | _, none, acc => some acc
  | 0, some _, _ => none
  | fuel + 1, some fid, acc =>
      match findFolder db fid with
      | none => some acc
      | some f => getPathAux db fuel f.parent (f.name :: acc)

/-- `Folder.get_path` with explicit fuel: the `'/'.join(parts) + '/'`
result, or `none` if the walk has not finished within `fuel` steps. -/
def folderGetPath (db : DB) (fuel fid : Nat) : Option String :=
  (getPathAux db fuel (some fid) []).map (fun ps => String.intercalate "/" ps ++ "/")

/-- The walk of `Folder.get_path` terminates on this folder: some finite
number of steps completes it. -/
def getPathTerminates (db : DB) (fid : Nat) : Prop :=
  ∃ fuel, (folderGetPath db fuel fid).isSome

/-- `fuel`-fold iteration of the `current = current.parent` step. -/
def parentStepN (db : DB) : Nat → Option Nat → Option Nat
  | 0, cur => cur
  | n + 1, cur =>
      parentStepN db n (match cur with
        | none => none
        | some fid => match findFolder db fid with
                      | none => none
                      | some f => f.parent)

/-- `create_folder(request, folder_id)`: resolve the target folder (root if
absent), allocate `new-folder-{n}`, insert the row. -/
def createFolder (db : DB) (u : Nat) (folderId : Option Nat) : Resp × DB :=
  let tdb : Option (Folder × DB) :=
    match folderId with
    | none => some (getUserRoot db u)
    | some fid => (findOwnedFolder db u fid).map (fun f => (f, db))
  match tdb with
  | none => (errResp 400 ("No Folder matches the given query."), db)
  | some (t, db1) =>
      match allocDefaultName (scopedFolderNames db1 u t.id) ("new-folder") with
      | none => (errResp 400 ("allocation loop did not finish"), db1)
      | some n =>
          let nm := mkName ("new-folder") n
          let f : Folder := ⟨db1.nextId, nm, some t.id, false, u⟩
          (okEntityResp db1.nextId nm,
           { db1 with folders := db1.folders ++ [f], nextId := db1.nextId + 1 })

/-- The in-memory tree `build_file_tree` constructs: a Python dict whose
values are either nested directory dicts or leaf file dicts
`{name, path, file, is_file}`. -/
inductive FTree where
  | leaf (name : String) (path : String) (blob : String) : FTree
  | node (children : List (String × FTree)) : FTree
deriving Repr

/-- Python dict assignment `d[k] = v`: replace in place if the key exists
(keeping its position), else append. -/
def setEntry (l : List (String × FTree)) (k : String) (v : FTree) : List (String × FTree) :=
  match l with
  | [] => [(k, v)]
  | (k0, v0) :: rest => if k0 = k then (k0, v) :: rest else (k0, v0) :: setEntry rest k v

/-- Descend `parts[:-1]` creating directory dicts, then assign the leaf
dict under the filename. Descending into an existing leaf dict mutates
keys that `create_file_tree` never reads, so the tree is unchanged for
creation purposes. -/
def insertParts (node : List (String × FTree)) (parts : List String)
    (fullPath blob : String) : List (String × FTree) :=
  match parts with
  | [] => node
  | [fn] => setEntry node fn (FTree.leaf fn fullPath blob)
  | p :: rest =>
      match node.lookup p with
      | some (FTree.node children) =>
          setEntry node p (FTree.node (insertParts children rest fullPath blob))
      | some (FTree.leaf _ _ _) => node
      | none => setEntry node p (FTree.node (insertParts [] rest fullPath blob))

/-- One iteration of `build_file_tree`'s `for path, file in zip(paths, files)`
loop: skip blank paths, split on `/` discarding empty segments, insert. -/
def buildStep (tree : List (String × FTree)) (pair : String × String) : List (String × FTree) :=
  if pyStrip pair.1 = "" then tree
  else
    let parts := (pySplitSlash (pyStrip pair.1)).filter (fun part => part ≠ "")
    match parts with
    | [] => tree
    | _ => insertParts tree parts (String.intercalate "/" parts) pair.2

/-- `build_file_tree(files, paths)`: build the nested dict from the
`(path, blob)` pairs, then return `tree["root"]` when the tree has exactly
the single top-level key `"root"` — and implicitly `None` otherwise, since
the function has no other `return` statement. -/
def buildFileTree (pairs : List (String × String)) : Option FTree :=
  match pairs.foldl buildStep [] with
  | [(k, v)] => if k = "root" then some v else none
  | _ => none

/-- An entry of the `created_items` list `upload` returns. -/
structure CreatedItem where
  id : Nat
  name : String
  path : String
  folderId : Nat
deriving Repr, DecidableEq

/-- `create_files(request, value, node)`: a leaf whose filename contains
`".md"` is saved as a Zettel (name is the filename with every `".md"`
occurrence removed, content is the decoded blob); any other leaf is saved
as a File keeping the raw blob and the unmodified filename. A uniqueness
violation raises, carrying the yet-unchanged database out of the handler. -/
def createFiles (db : DB) (u : Nat) (nm fullPath blob : String) (nodeId : Nat) :
    Except (DB × String) (DB × CreatedItem) :=
  if pyIn ".md" nm then
    let zname := pyReplace nm ".md" ""
    if zettelNameTaken db u nodeId zname 0 then
      Except.error (db, "UNIQUE constraint failed")
    else
      let z : Zettel := ⟨db.nextId, zname, nodeId, u, blob, false⟩
      Except.ok ({ db with zettels := db.zettels ++ [z], nextId := db.nextId + 1 },
                 ⟨db.nextId, zname, fullPath, nodeId⟩)
  else
    if fileNameTaken db u (some nodeId) nm 0 then
      Except.error (db, "UNIQUE constraint failed")
    else
      let f : FileRec := ⟨db.nextId, nm, some nodeId, u, blob⟩
      Except.ok ({ db with files := db.files ++ [f], nextId := db.nextId + 1 },
                 ⟨db.nextId, nm, fullPath, nodeId⟩)

/-- `create_file_tree(request, tree, node)`: walk the dict in insertion
order; directory entries are `get_or_create`d as folders and recursed
into, leaf entries go through `create_files`. -/
def createFileTree (db : DB) (u nodeId : Nat) :
    List (String × FTree) → Except (DB × String) (DB × List CreatedItem)
  | [] => Except.ok (db, [])
  | (_key, FTree.leaf nm fullPath blob) :: rest =>
      match createFiles db u nm fullPath blob nodeId with
      | Except.error e => Except.error e
      | Except.ok (db1, item) =>
          match createFileTree db1 u nodeId rest with
          | Except.error e => Except.error e
          | Except.ok (db2, items) => Except.ok (db2, item :: items)
  | (key, FTree.node children) :: rest =>
      let fdb : Folder × DB :=
        match db.folders.find? (fun f => f.name = key && f.parent = some nodeId && f.author = u) with
        | some f => (f, db)
        | none =>
            let f : Folder := ⟨db.nextId, key, some nodeId, false, u⟩
            (f, { db with folders := db.folders ++ [f], nextId := db.nextId + 1 })
      match createFileTree fdb.2 u fdb.1.id children with
      | Except.error e => Except.error e
      | Except.ok (db1, items1) =>
          match createFileTree db1 u nodeId rest with
          | Except.error e => Except.error e
          | Except.ok (db2, items2) => Except.ok (db2, items1 ++ items2)

/-- The body of `upload` after the target folder is resolved: presence and
count checks, `build_file_tree`, then `create_file_tree` — where passing
the `None` tree raises `AttributeError`, caught as a 400 response. -/
def uploadCore (db : DB) (u tid : Nat) (files filePaths : List String) : Resp × DB :=
  if files = [] then (errResp 400 ("No files uploaded"), db)
  else if files.length ≠ filePaths.length then
    (errResp 400 ("Files and paths count mismatch"), db)
  else
    match buildFileTree (filePaths.zip files) with
    | none => (errResp 400 ("NoneType object has no attribute items"), db)
    | some (FTree.leaf _ _ _) => (okMsgResp ("Files uploaded successfully"), db)
    | some (FTree.node entries) =>
        match createFileTree db u tid entries with
        | Except.error (db1, e) => (errResp 400 e, db1)
        | Except.ok (db1, _) => (okMsgResp ("Files uploaded successfully"), db1)

/-- `upload(request)`: resolve the target folder (the user's root when no
`folder_id` is posted), then run the import. -/
def upload (db : DB) (u : Nat) (folderId : Option Nat) (files filePaths : List String) : Resp × DB :=
  match folderId with
  | none =>
      let (root, db1) := getUserRoot db u
      uploadCore db1 u root.id files filePaths
  | some fid =>
      match findOwnedFolder db u fid with
      | none => (errResp 404 ("Folder not found or access denied"), db)
      | some t => uploadCore db u t.id files filePaths

/-- The recursive `add_folder_to_zip` walk of `download`: zettels as
`{base}{name}.md` with encoded content, files as `{base}{name}` with raw
bytes, then subfolders under `{base}{name}/`. -/
def addFolderEntries (db : DB) : Nat → Nat → String → List (String × String)
  | 0, _, _ => []
  | fuel + 1, folderId, basePath =>
      let zs := (db.zettels.filter (fun z => z.folder = folderId)).map
        (fun z => (basePath ++ z.name ++ ".md", z.content))
      let fs := (db.files.filter (fun f => f.folder = some folderId)).map
        (fun f => (basePath ++ f.name, f.blob))
      let subs := (db.folders.filter (fun f => f.parent = some folderId)).flatMap
        (fun sf => addFolderEntries db fuel sf.id (basePath ++ sf.name ++ "/"))
      zs ++ fs ++ subs

/-- `download(request, folder_id)`: the archive's suggested filename and
its `(path, bytes)` entries, or `none` (404) when the folder is not owned
by the caller. -/
def download (db : DB) (u folderId : Nat) : Option (String × List (String × String)) :=
  (findOwnedFolder db u folderId).map
    (fun f => (f.name ++ ".zip", addFolderEntries db (db.folders.length + 1) f.id ""))

/-- Match the `\(.*?\)` tail of the link pattern: the shortest run of
non-newline characters up to a closing parenthesis. Returns the target
characters and the remainder after the parenthesis. -/
def findClose (acc : List Char) : List Char → Option (List Char × List Char)
  | [] => none
  | c :: cs =>
      if c = ')' then some (acc.reverse, cs)
      else if c = '\n' then none
      else findClose (c :: acc) cs

/-- Match `.*?\]\(.*?\)` after an opening bracket: find the shortest label
(backtracking over `](` occurrences whose tail fails), then the target.
Returns label, target and the remainder after the match. -/
def matchBody (acc : List Char) : List Char → Option (List Char × List Char × List Char)
  | [] => none
  | c :: cs =>
      if c = '\n' then none
      else if c = ']' then
        match cs with
        | '(' :: cs2 =>
            (match findClose [] cs2 with
             | some (b, rest) => some (acc.reverse, b, rest)
             | none => matchBody (c :: acc) cs)
        | _ => matchBody (c :: acc) cs
      else matchBody (c :: acc) cs

/-- The full matched text `[label](target)` reassembled. -/
def fullMatch (a b : List Char) : List Char :=
  '[' :: a ++ ']' :: '(' :: b ++ [')']

/-- `re.findall(r'\[.*?\]\(.*?\)', s)`: leftmost, non-overlapping matches,
scanning with fuel bounded by the text length. -/
def findAllAux (fuel : Nat) (s : List Char) : List (List Char) :=
  match fuel, s with
  | 0, _ => []
  | _, [] => []
  | f + 1, c :: cs =>
      if c = '[' then
        match matchBody [] cs with
        | some (a, b, rest) => fullMatch a b :: findAllAux f rest
        | none => findAllAux f cs
      else findAllAux f cs

/-- All `[label](target)` matches in a zettel's content. -/
def findAllLinks (s : String) : List (List Char) :=
  findAllAux s.data.length s.data

/-- `match.split("(")[1].split(")")[0]`: the text after the first opening
parenthesis of the match, cut at the next parenthesis of either kind. -/
def extractTarget (m : List Char) : String :=
  String.mk ((((m.dropWhile (fun c => c ≠ '(')).drop 1).takeWhile
    (fun c => c ≠ '(')).takeWhile (fun c => c ≠ ')'))

/-- The node list of `network`: one node per zettel of the caller. -/
def networkNodes (db : DB) (u : Nat) : List String :=
  (db.zettels.filter (fun z => z.author = u)).map (fun z => z.name)

/-- The edge list of `network`: for each of the caller's zettels, each
regex match yields an edge when `Zettel.objects.filter(name=target)` — a
query over every user's zettels — is non-empty. -/
def networkEdges (db : DB) (u : Nat) : List (String × String) :=
  (db.zettels.filter (fun z => z.author = u)).flatMap (fun z =>
    (findAllLinks z.content).filterMap (fun m =>
      let tgt := extractTarget m
      if db.zettels.any (fun w => w.name = tgt) then some (z.name, tgt) else none))

/-! Concrete database states used to instantiate the theorems. -/

/-- A user's bare state: only the root folder. -/
def rootOnlyDB : DB := ⟨[⟨1, "root", none, true, 1⟩], [], [], 2⟩

/-- Root folder with a descendant chain `root/A/B`. -/
def chainDB : DB :=
  ⟨[⟨1, "root", none, true, 1⟩, ⟨2, "A", some 1, false, 1⟩, ⟨3, "B", some 2, false, 1⟩],
   [], [], 4⟩

/-- Two folders forming a parent cycle (a contract-violating state). -/
def cycDB : DB :=
  ⟨[⟨1, "a", some 2, false, 1⟩, ⟨2, "b", some 1, false, 1⟩], [], [], 3⟩

/-- User 1's tree `root/{sub}` with a zettel in `sub` and a file in the
root, next to user 2's root. -/
def twoUserTreeDB : DB :=
  ⟨[⟨1, "root", none, true, 1⟩, ⟨2, "sub", some 1, false, 1⟩, ⟨3, "root", none, true, 2⟩],
   [⟨1, "note", 2, 1, "hi", false⟩],
   [⟨1, "pic.png", some 1, 1, "bytes"⟩], 4⟩

/-- The export scenario: folder `A` holding zettel `notes` (content
`hello`) and file `img.png`. -/
def exportDB : DB :=
  ⟨[⟨1, "A", none, false, 1⟩],
   [⟨1, "notes", 1, 1, "hello", false⟩],
   [⟨1, "img.png", some 1, 1, "\x89PNG"⟩], 2⟩

/-- A fresh tenant with an empty folder `A2` for the re-import. -/
def importTargetDB : DB := ⟨[⟨5, "A2", none, false, 1⟩], [], [], 6⟩

/-- Two users with one zettel each: user 1's note links to the name of a
zettel that only user 2 owns. -/
def crossUserLinkDB : DB :=
  ⟨[⟨1, "root", none, true, 1⟩, ⟨2, "root", none, true, 2⟩],
   [⟨1, "a", 1, 1, "[l](b)", false⟩, ⟨2, "b", 2, 2, "x", false⟩], [], 3⟩

/-- Scope already holding `new-zettel-0`, `new-zettel-1` and
`new-folder-0`. -/
def allocDB : DB :=
  ⟨[⟨1, "root", none, true, 1⟩, ⟨2, "new-folder-0", some 1, false, 1⟩],
   [⟨1, "new-zettel-0", 1, 1, "", false⟩, ⟨2, "new-zettel-1", 1, 1, "", false⟩], [], 3⟩

/-- Two sibling zettels, for rename-conflict instantiation. -/
def twoZettelDB : DB :=
  ⟨[⟨1, "root", none, true, 1⟩],
   [⟨1, "alpha", 1, 1, "x", false⟩, ⟨2, "beta", 1, 1, "y", false⟩], [], 3⟩

/-! General lemmas about the embedded operations, followed by the claim
theorems. -/

/-- C3: the spec's concrete upload scenario — paths
`["notes/a.md", "notes/sub/b.md", "img/c.png"]` with matching blobs into a
target folder. The claim expects a successful import creating folders
`notes`, `notes/sub`, `img` with their leaves; the code's
`build_file_tree` instead returns `None` (its only `return` is behind the
single-top-level-key `"root"` check), so `create_file_tree` raises
`AttributeError` and `upload` answers a 400 error with no entity created. -/
theorem upload_concrete_scenario_fails :
    (buildFileTree [("notes/a.md", "ca"), ("notes/sub/b.md", "cb"), ("img/c.png", "cc")]).isNone
      = true
    ∧ upload rootOnlyDB 1 (some 1) ["ca", "cb", "cc"] ["notes/a.md", "notes/sub/b.md", "img/c.png"]
      = (errResp 400 ("NoneType object has no attribute items"), rootOnlyDB) := by
  decide

/-- C4: the export/import round trip. Exporting folder `A` (zettel `notes`
with content `hello`, file `img.png`) yields entries
`[("notes.md", "hello"), ("img.png", bytes)]`; the claim expects importing
those entries into fresh folder `A2` to recreate both leaves, but
`build_file_tree` returns `None` on them (two top-level keys, neither
`"root"`), so the import fails with a 400 error and creates nothing. -/
theorem export_import_round_trip_fails :
    download exportDB 1 1 = some ("A.zip", [("notes.md", "hello"), ("img.png", "\x89PNG")])
    ∧ (buildFileTree [("notes.md", "hello"), ("img.png", "\x89PNG")]).isNone = true
    ∧ upload importTargetDB 1 (some 5) ["hello", "\x89PNG"] ["notes.md", "img.png"]
      = (errResp 400 ("NoneType object has no attribute items"), importTargetDB) := by
  decide

/-- C8: the link graph resolves targets against every user's zettels. In
`crossUserLinkDB`, user 1's zettel `a` links to `b`, a name only user 2
owns; the claim says no edge appears, but `network`'s existence check
(`Zettel.objects.filter(name=that_id)`, with no author filter) finds user
2's zettel and emits the edge `a → b`. -/
theorem network_edge_to_foreign_zettel :
    networkEdges crossUserLinkDB 1 = [("a", "b")]
    ∧ crossUserLinkDB.zettels.any (fun z => z.author = 1 && z.name = "b") = false := by
  decide

/-- C10: `update_zettel` rejects an absent or empty `content` with a 400
error and leaves the database unchanged, and no call to it can ever leave
a zettel with empty content that did not already have one. -/
theorem update_zettel_never_empties_content :
    (∀ (db : DB) (u : Nat) (z : Zettel) (c : Option String), z ∈ db.zettels → z.author = u →
      (c = none ∨ c = some "") →
      updateZettel db u z.id c = (errResp 400 ("Content is required"), db))
    ∧ (∀ (db : DB) (u zid : Nat) (c : Option String) (w : Zettel),
        w ∈ (updateZettel db u zid c).2.zettels → w.content = "" → w ∈ db.zettels) := by
  constructor
  · intro db u z c hz hu hc
    have hfind : (findOwnedZettel db u z.id).isSome := by
      rw [findOwnedZettel, List.find?_isSome]
      exact ⟨z, hz, by simp [hu]⟩
    rcases Option.isSome_iff_exists.1 hfind with ⟨z0, hz0⟩
    rcases hc with hc | hc <;> subst hc <;> simp [updateZettel, hz0]
  · intro db u zid c w hw hwc
    rcases hfind : findOwnedZettel db u zid with _ | z0
    · simpa [updateZettel, hfind] using hw
    · rcases c with _ | s
      · simpa [updateZettel, hfind] using hw
      · by_cases hs : s = ""
        · simpa [updateZettel, hfind, hs] using hw
        · rw [updateZettel, hfind] at hw
          simp only [hs, if_false] at hw
          rcases List.mem_map.1 hw with ⟨w0, hw0, hweq⟩
          by_cases h0 : w0.id = zid
          · exfalso
            rw [← hweq] at hwc
            simp [h0] at hwc
            exact hs hwc
          · rw [← hweq]
            simpa [h0] using hw0

/-- Instantiation of the C10 theorem: empty content on a concrete state is
rejected and the state survives unchanged, including its zettel content. -/
theorem update_zettel_never_empties_content_witness :
    updateZettel twoZettelDB 1 1 (some "") = (errResp 400 ("Content is required"), twoZettelDB) :=
  update_zettel_never_empties_content.1 twoZettelDB 1 ⟨1, "alpha", 1, 1, "x", false⟩ (some "")
    (by decide) (by decide) (Or.inr rfl)

/-- If a folder row with the given id and author is present, the owned
lookup succeeds, returning a row with that id and author. -/
theorem findOwnedFolder_exists {db : DB} {u i : Nat} (x : Folder)
    (hx : x ∈ db.folders) (hid : x.id = i) (hau : x.author = u) :
    ∃ o, findOwnedFolder db u i = some o ∧ o.id = i ∧ o.author = u := by
  have hs : (findOwnedFolder db u i).isSome := by
    rw [findOwnedFolder, List.find?_isSome]
    exact ⟨x, hx, by simp [hid, hau]⟩
  rcases Option.isSome_iff_exists.1 hs with ⟨o, ho⟩
  have hp := List.find?_some (by simpa [findOwnedFolder] using ho)
  simp at hp
  exact ⟨o, ho, hp.1, hp.2⟩

/-- If the moved folder's id occurs on the walked ancestor chain, the
`move_item` cycle loop stops with a positive answer within the same fuel. -/
theorem cycleLoop_finds_of_mem (db : DB) (objId : Nat) :
    ∀ (fuel : Nat) (cur : Option Nat), objId ∈ ancWalk db fuel cur →
      cycleLoop db objId fuel cur = some true := by
  intro fuel
  induction fuel with
  | zero => intro cur h; cases cur <;> simp [ancWalk] at h
  | succ n ih =>
      intro cur h
      cases cur with
      | none => simp [ancWalk] at h
      | some fid =>
          rcases hf : findFolder db fid with _ | f
          · rw [ancWalk, hf] at h; simp at h
          · rw [ancWalk, hf] at h
            by_cases he : fid = objId
            · simp [cycleLoop, he]
            · rcases List.mem_cons.1 h with h1 | h2
              · exact absurd h1.symm he
              · rw [cycleLoop]
                simp only [he, if_false, hf]
                exact ih _ h2

/-- C1: moving a folder `a` into a folder `b` whose ancestor chain
contains `a` (including `b = a`) is rejected with the cycle error before
any row is written: the response is the 400 cycle message and the
database is returned exactly as it was. -/
theorem move_folder_into_descendant_rejected (db : DB) (u : Nat) (a b : Folder)
    (ha : a ∈ db.folders) (hau : a.author = u)
    (hb : b ∈ db.folders) (hbu : b.author = u) (hb0 : b.id ≠ 0)
    (hchain : a.id ∈ ancestorChain db b.id) :
    moveItem db u "folder" a.id (some b.id)
      = some (errResp 400 ("Cannot move folder into itself or its descendants"), db) := by
  rcases findOwnedFolder_exists a ha rfl hau with ⟨o, ho, hoid, _⟩
  rcases findOwnedFolder_exists b hb rfl hbu with ⟨t, ht, htid, _⟩
  have hc : cycleLoop db o.id (db.folders.length + 1) (some t.id) = some true := by
    apply cycleLoop_finds_of_mem
    rw [hoid, htid]
    exact hchain
  rw [moveItem]
  simp [hb0, ho, ht, hc]

/-- Instantiation of the C1 theorem: in `chainDB` (`root/A/B`), moving `A`
into its descendant `B` is rejected and the tree is unchanged. -/
theorem move_folder_into_descendant_rejected_witness :
    moveItem chainDB 1 "folder" 2 (some 3)
      = some (errResp 400 ("Cannot move folder into itself or its descendants"), chainDB) :=
  move_folder_into_descendant_rejected chainDB 1 ⟨2, "A", some 1, false, 1⟩
    ⟨3, "B", some 2, false, 1⟩ (by decide) rfl (by decide) rfl (by decide) (by decide)

/-- A doomed-id set is contained in its one-step cascade extension. -/
theorem subset_growFolderIds (db : DB) (s : List Nat) : s ⊆ growFolderIds db s := by
  intro x hx
  rw [growFolderIds]
  exact List.mem_append_left _ hx

/-- A doomed-id set is contained in its iterated cascade closure. -/
theorem subset_cascadeIds (db : DB) : ∀ (n : Nat) (s : List Nat), s ⊆ cascadeIds db n s := by
  intro n
  induction n with
  | zero => intro s x hx; simpa [cascadeIds] using hx
  | succ m ih => intro s x hx; rw [cascadeIds]; exact ih _ (subset_growFolderIds db s hx)

/-- C2: deleting a user's root folder wipes the tenant. If the user has a
root folder and every zettel/file the user owns sits in a folder the user
owns (the live-state invariant all creation paths maintain), then after
`delete_item` on the root no Folder, Zettel or File row of that author
remains. -/
theorem delete_root_wipes_tenant (db : DB) (u : Nat) (r : Folder)
    (hroot : db.folders.find? (fun f => f.author = u && f.isRoot) = some r)
    (hz : ∀ z ∈ db.zettels, z.author = u → ∃ f ∈ db.folders, z.folder = f.id ∧ f.author = u)
    (hf : ∀ fl ∈ db.files, fl.author = u →
      ∃ f ∈ db.folders, fl.folder = some f.id ∧ f.author = u) :
    (∀ f ∈ (deleteItem db u "folder" r.id).2.folders, f.author ≠ u)
    ∧ (∀ z ∈ (deleteItem db u "folder" r.id).2.zettels, z.author ≠ u)
    ∧ (∀ fl ∈ (deleteItem db u "folder" r.id).2.files, fl.author ≠ u) := by
  have hd : (deleteItem db u "folder" r.id).2 = wipeUser db u := by
    rw [deleteItem]
    simp [getUserRoot, hroot]
  rw [hd]
  have hdoomed : ∀ f ∈ db.folders, f.author = u →
      f.id ∈ cascadeIds db db.folders.length
        ((db.folders.filter (fun f => f.author = u)).map (fun f => f.id)) := by
    intro f hfm hfa
    apply subset_cascadeIds
    exact List.mem_map_of_mem _ (List.mem_filter.2 ⟨hfm, by simp [hfa]⟩)
  refine ⟨?_, ?_, ?_⟩
  · intro f hfm hfa
    rw [wipeUser, deleteFolders] at hfm
    simp only [List.mem_filter, decide_eq_true_eq] at hfm
    exact hfm.2 (hdoomed f hfm.1 hfa)
  · intro z hzm hza
    rw [wipeUser, deleteFolders] at hzm
    simp only [List.mem_filter, decide_eq_true_eq] at hzm
    rcases hz z hzm.1 hza with ⟨f, hfm, hzf, hfa⟩
    exact hzm.2 (hzf ▸ hdoomed f hfm hfa)
  · intro fl hflm hfla
    rw [wipeUser, deleteFolders] at hflm
    simp only [List.mem_filter] at hflm
    rcases hf fl hflm.1 hfla with ⟨f, hfm, hflf, hfa⟩
    have := hflm.2
    rw [hflf] at this
    simp only [decide_eq_true_eq] at this
    exact this (hdoomed f hfm hfa)

/-- Instantiation of the C2 theorem: wiping user 1's root in
`twoUserTreeDB` leaves no row of author 1. -/
theorem delete_root_wipes_tenant_witness :
    (∀ f ∈ (deleteItem twoUserTreeDB 1 "folder" 1).2.folders, f.author ≠ 1)
    ∧ (∀ z ∈ (deleteItem twoUserTreeDB 1 "folder" 1).2.zettels, z.author ≠ 1)
    ∧ (∀ fl ∈ (deleteItem twoUserTreeDB 1 "folder" 1).2.files, fl.author ≠ 1) :=
  delete_root_wipes_tenant twoUserTreeDB 1 ⟨1, "root", none, true, 1⟩
    (by decide) (by decide) (by decide)

/-- In the two-folder cycle state, the `get_path` walk starting inside the
cycle is still running after any number of steps. -/
theorem cycDB_walk_stuck : ∀ (n fid : Nat) (acc : List String),
    fid = 1 ∨ fid = 2 → getPathAux cycDB n (some fid) acc = none := by
  intro n
  induction n with
  | zero => intro fid acc h; rfl
  | succ m ih =>
      intro fid acc h
      rcases h with h | h <;> subst h
      · exact ih 2 _ (Or.inr rfl)
      · exact ih 1 _ (Or.inl rfl)

/-- C6 counterexample: on the contract-violating cycle state `cycDB`, the
path computation of folder 1 never terminates — there is no depth bound
and no `IntegrityError`; the claim's termination guarantee is false. -/
theorem get_path_diverges_on_cycle : ¬ getPathTerminates cycDB 1 := by
  rintro ⟨fuel, hs⟩
  rw [folderGetPath, cycDB_walk_stuck fuel 1 [] (Or.inl rfl)] at hs
  simp at hs

/-- Iterating the parent step from `none` stays at `none`. -/
theorem parentStepN_none (db : DB) : ∀ n, parentStepN db n none = none := by
  intro n
  induction n with
  | zero => rfl
  | succ m ih => rw [parentStepN]; exact ih

/-- If the parent iteration from `cur` dies out within `n` steps, the
accumulator walk with fuel `n` finishes. -/
theorem getPathAux_isSome_of_stepN (db : DB) : ∀ (n : Nat) (cur : Option Nat) (acc : List String),
    parentStepN db n cur = none → (getPathAux db n cur acc).isSome := by
  intro n
  induction n with
  | zero =>
      intro cur acc h
      rw [parentStepN] at h
      subst h
      rfl
  | succ m ih =>
      intro cur acc h
      cases cur with
      | none => rfl
      | some fid =>
          rw [parentStepN] at h
          rcases hf : findFolder db fid with _ | f
          · rw [getPathAux, hf]
            rfl
          · rw [getPathAux, hf]
            rw [hf] at h
            exact ih f.parent _ h

/-- If the accumulator walk finishes with fuel `n`, the parent iteration
dies out within some number of steps. -/
theorem stepN_none_of_getPathAux (db : DB) : ∀ (n : Nat) (cur : Option Nat) (acc : List String),
    (getPathAux db n cur acc).isSome → ∃ m, parentStepN db m cur = none := by
  intro n
  induction n with
  | zero =>
      intro cur acc h
      cases cur with
      | none => exact ⟨0, rfl⟩
      | some fid => simp [getPathAux] at h
  | succ m ih =>
      intro cur acc h
      cases cur with
      | none => exact ⟨0, rfl⟩
      | some fid =>
          rcases hf : findFolder db fid with _ | f
          · refine ⟨1, ?_⟩
            rw [parentStepN, hf]
            rfl
          · rw [getPathAux, hf] at h
            rcases ih f.parent _ h with ⟨k, hk⟩
            refine ⟨k + 1, ?_⟩
            rw [parentStepN, hf]
            exact hk

/-- C6 (amended): `Folder.get_path` terminates on a folder exactly when
iterating the parent step from it reaches `None` after finitely many
steps; the walk is not depth-bounded, so inside a parent cycle it runs
forever (as the counterexample state shows). -/
theorem get_path_terminates_iff_chain_ends (db : DB) (fid : Nat) :
    getPathTerminates db fid ↔ ∃ n, parentStepN db n (some fid) = none := by
  constructor
  · rintro ⟨fuel, hs⟩
    rw [folderGetPath] at hs
    rcases h : getPathAux db fuel (some fid) [] with _ | ps
    · rw [h] at hs; simp at hs
    · exact stepN_none_of_getPathAux db fuel (some fid) [] (by rw [h]; rfl)
  · rintro ⟨n, hn⟩
    refine ⟨n, ?_⟩
    rw [folderGetPath]
    have := getPathAux_isSome_of_stepN db n (some fid) [] hn
    rcases h : getPathAux db n (some fid) [] with _ | ps
    · rw [h] at this; simp at this
    · rfl

/-- C7 counterexample: renaming folder 2 of `chainDB` to `" A.md "` stores
`"A.md"` — the handler only strips whitespace; the claimed lowercasing and
extension-stripping (which would yield `"a"`) do not happen. -/
theorem rename_does_not_normalize :
    nameOf (updateItemName chainDB 1 "folder" 2 (some (" A.md "))).2 "folder" 2 = some ("A.md")
    ∧ some ("A.md") ≠ some ("a") := by
  decide

/-- Updating in place the rows selected by an id projection commutes with
the first-match lookup on that id. -/
theorem find?_map_setter {α : Type} (getId : α → Nat) (upd : α → α)
    (hid : ∀ a, getId (upd a) = getId a) (l : List α) (i : Nat) :
    (l.map (fun a => if getId a = i then upd a else a)).find? (fun a => getId a = i)
      = (l.find? (fun a => getId a = i)).map upd := by
  induction l with
  | nil => rfl
  | cons a l ih =>
      by_cases h : getId a = i
      · simp [h, hid]
      · simp only [List.map_cons, if_neg h]
        rw [List.find?_cons_of_neg _ (by simp [h]), List.find?_cons_of_neg _ (by simp [h])]
        exact ih

/-- A successful zettel rename stores exactly the requested name. -/
theorem renameZettel_success_name (db : DB) (u id : Nat) (nm : String)
    (h : (renameZettel db u id nm).1.success = true) :
    nameOf (renameZettel db u id nm).2 "zettel" id = some nm := by
  rcases hz : findOwnedZettel db u id with _ | z
  · rw [renameZettel, hz] at h
    simp [errResp] at h
  · by_cases ht : zettelNameTaken db u z.folder nm z.id = true
    · rw [renameZettel, hz] at h
      simp [ht, errResp] at h
    · have hzp := List.find?_some (by simpa [findOwnedZettel] using hz)
      simp only [Bool.and_eq_true, decide_eq_true_eq] at hzp
      have hmem := List.mem_of_find?_eq_some (by simpa [findOwnedZettel] using hz)
      have hex : db.zettels.find? (fun w => w.id = id) ≠ none := by
        rw [Ne, List.find?_eq_none]
        push_neg
        exact ⟨z, hmem, by simp [hzp.1]⟩
      rcases ho : db.zettels.find? (fun w => w.id = id) with _ | w0
      · exact absurd ho hex
      · rw [renameZettel, hz]
        simp only [Bool.not_eq_true] at ht
        simp only [ht, Bool.false_eq_true, if_false]
        rw [nameOf]
        simp only [if_pos rfl]
        rw [find?_map_setter (fun w => w.id) (fun w => { w with name := nm }) (fun a => rfl)
          db.zettels id, ho]
        rfl

/-- A failed zettel rename leaves the database untouched. -/
theorem renameZettel_fail_unchanged (db : DB) (u id : Nat) (nm : String)
    (h : (renameZettel db u id nm).1.success = false) :
    (renameZettel db u id nm).2 = db := by
  rcases hz : findOwnedZettel db u id with _ | z
  · rw [renameZettel, hz]
  · by_cases ht : zettelNameTaken db u z.folder nm z.id = true
    · rw [renameZettel, hz]
      simp [ht]
    · rw [renameZettel, hz] at h
      simp only [Bool.not_eq_true] at ht
      simp [ht, okEntityResp] at h

/-- A successful file rename stores exactly the requested name. -/
theorem renameFile_success_name (db : DB) (u id : Nat) (nm : String)
    (h : (renameFile db u id nm).1.success = true) :
    nameOf (renameFile db u id nm).2 "file" id = some nm := by
  rcases hz : findOwnedFile db u id with _ | z
  · rw [renameFile, hz] at h
    simp [errResp] at h
  · by_cases ht : fileNameTaken db u z.folder nm z.id = true
    · rw [renameFile, hz] at h
      simp [ht, errResp] at h
    · have hzp := List.find?_some (by simpa [findOwnedFile] using hz)
      simp only [Bool.and_eq_true, decide_eq_true_eq] at hzp
      have hmem := List.mem_of_find?_eq_some (by simpa [findOwnedFile] using hz)
      have hex : db.files.find? (fun w => w.id = id) ≠ none := by
        rw [Ne, List.find?_eq_none]
        push_neg
        exact ⟨z, hmem, by simp [hzp.1]⟩
      rcases ho : db.files.find? (fun w => w.id = id) with _ | w0
      · exact absurd ho hex
      · rw [renameFile, hz]
        simp only [Bool.not_eq_true] at ht
        simp only [ht, Bool.false_eq_true, if_false]
        rw [nameOf]
        simp only [String.reduceEq, if_neg, if_pos rfl]
        rw [find?_map_setter (fun w => w.id) (fun w => { w with name := nm }) (fun a => rfl)
          db.files id, ho]
        rfl

/-- A failed file rename leaves the database untouched. -/
theorem renameFile_fail_unchanged (db : DB) (u id : Nat) (nm : String)
    (h : (renameFile db u id nm).1.success = false) :
    (renameFile db u id nm).2 = db := by
  rcases hz : findOwnedFile db u id with _ | z
  · rw [renameFile, hz]
  · by_cases ht : fileNameTaken db u z.folder nm z.id = true
    · rw [renameFile, hz]
      simp [ht]
    · rw [renameFile, hz] at h
      simp only [Bool.not_eq_true] at ht
      simp [ht, okEntityResp] at h

/-- A successful folder rename stores exactly the requested name. -/
theorem renameFolder_success_name (db : DB) (u id : Nat) (nm : String)
    (h : (renameFolder db u id nm).1.success = true) :
    nameOf (renameFolder db u id nm).2 "folder" id = some nm := by
  rcases hz : findOwnedFolder db u id with _ | z
  · rw [renameFolder, hz] at h
    simp [errResp] at h
  · by_cases ht : folderNameTaken db u z.parent nm z.id = true
    · rw [renameFolder, hz] at h
      simp [ht, errResp] at h
    · have hzp := List.find?_some (by simpa [findOwnedFolder] using hz)
      simp only [Bool.and_eq_true, decide_eq_true_eq] at hzp
      have hmem := List.mem_of_find?_eq_some (by simpa [findOwnedFolder] using hz)
      have hex : db.folders.find? (fun w => w.id = id) ≠ none := by
        rw [Ne, List.find?_eq_none]
        push_neg
        exact ⟨z, hmem, by simp [hzp.1]⟩
      rcases ho : db.folders.find? (fun w => w.id = id) with _ | w0
      · exact absurd ho hex
      · rw [renameFolder, hz]
        simp only [Bool.not_eq_true] at ht
        simp only [ht, Bool.false_eq_true, if_false]
        rw [nameOf]
        simp only [String.reduceEq, if_neg, if_pos rfl]
        rw [find?_map_setter (fun w => w.id) (fun w => { w with name := nm }) (fun a => rfl)
          db.folders id, ho]
        rfl

/-- A failed folder rename leaves the database untouched. -/
theorem renameFolder_fail_unchanged (db : DB) (u id : Nat) (nm : String)
    (h : (renameFolder db u id nm).1.success = false) :
    (renameFolder db u id nm).2 = db := by
  rcases hz : findOwnedFolder db u id with _ | z
  · rw [renameFolder, hz]
  · by_cases ht : folderNameTaken db u z.parent nm z.id = true
    · rw [renameFolder, hz]
      simp [ht]
    · rw [renameFolder, hz] at h
      simp only [Bool.not_eq_true] at ht
      simp [ht, okEntityResp] at h

/-- C7 (amended): the rename boundary normalization is whitespace trimming
only — on success the stored name is exactly the stripped input (no
lowercasing, no extension stripping); a name colliding in the entity's
current uniqueness scope makes the call fail; and every failed call leaves
the database unchanged (the entity keeps its old name). -/
theorem rename_trims_only_and_checks_uniqueness (db : DB) (u : Nat) (ty : String) (id : Nat)
    (raw : Option String) :
    ((updateItemName db u ty id raw).1.success = true →
      nameOf (updateItemName db u ty id raw).2 ty id = some (pyStrip (raw.getD "")))
    ∧ (renameConflict db u ty id (pyStrip (raw.getD "")) = true →
        (updateItemName db u ty id raw).1.success = false)
    ∧ ((updateItemName db u ty id raw).1.success = false →
        (updateItemName db u ty id raw).2 = db) := by
  by_cases h1 : ty = "zettel"
  · subst h1
    by_cases he : pyStrip (raw.getD "") = ""
    · refine ⟨?_, ?_, ?_⟩
      · intro h
        rw [updateItemName] at h
        simp [he, errResp] at h
      · intro _
        rw [updateItemName]
        simp [he, errResp]
      · intro _
        rw [updateItemName]
        simp [he]
    · have hu : updateItemName db u "zettel" id raw
          = renameZettel db u id (pyStrip (raw.getD "")) := by
        rw [updateItemName]
        simp [he]
      rw [hu]
      refine ⟨renameZettel_success_name db u id _, ?_, renameZettel_fail_unchanged db u id _⟩
      intro hc
      rw [renameConflict] at hc
      rcases hz : findOwnedZettel db u id with _ | z
      · rw [hz] at hc
        simp at hc
      · rw [hz] at hc
        simp at hc
        rw [renameZettel, hz]
        simp [hc, errResp]
  · by_cases h2 : ty = "file"
    · subst h2
      by_cases he : pyStrip (raw.getD "") = ""
      · refine ⟨?_, ?_, ?_⟩
        · intro h
          rw [updateItemName] at h
          simp [he, errResp] at h
        · intro _
          rw [updateItemName]
          simp [he, errResp]
        · intro _
          rw [updateItemName]
          simp [he]
      · have hu : updateItemName db u "file" id raw
            = renameFile db u id (pyStrip (raw.getD "")) := by
          rw [updateItemName]
          simp [he]
        rw [hu]
        refine ⟨renameFile_success_name db u id _, ?_, renameFile_fail_unchanged db u id _⟩
        intro hc
        rw [renameConflict] at hc
        rcases hz : findOwnedFile db u id with _ | z
        · rw [hz] at hc
          simp at hc
        · rw [hz] at hc
          simp at hc
          rw [renameFile, hz]
          simp [hc, errResp]
    · by_cases h3 : ty = "folder"
      · subst h3
        by_cases he : pyStrip (raw.getD "") = ""
        · refine ⟨?_, ?_, ?_⟩
          · intro h
            rw [updateItemName] at h
            simp [he, errResp] at h
          · intro _
            rw [updateItemName]
            simp [he, errResp]
          · intro _
            rw [updateItemName]
            simp [he]
        · have hu : updateItemName db u "folder" id raw
              = renameFolder db u id (pyStrip (raw.getD "")) := by
            rw [updateItemName]
            simp [he]
          rw [hu]
          refine ⟨renameFolder_success_name db u id _, ?_, renameFolder_fail_unchanged db u id _⟩
          intro hc
          rw [renameConflict] at hc
          rcases hz : findOwnedFolder db u id with _ | z
          · rw [hz] at hc
            simp at hc
          · rw [hz] at hc
            simp at hc
            rw [renameFolder, hz]
            simp [hc, errResp]
      · have hu : updateItemName db u ty id raw = (errResp 400 ("Invalid type"), db) := by
          rw [updateItemName]
          simp [h1, h2, h3]
        have hcf : renameConflict db u ty id (pyStrip (raw.getD "")) = false := by
          rw [renameConflict]
          simp [h1, h2, h3]
        rw [hu, hcf]
        refine ⟨?_, ?_, ?_⟩
        · intro h
          simp [errResp] at h
        · intro h
          simp at h
        · intro _
          rfl

/-- Instantiation of the C7 theorem: renaming zettel 1 of `twoZettelDB` to
`" beta "` collides with its sibling `beta` — the call fails and the state
is unchanged; renaming zettel 2 to `" gamma "` succeeds and stores exactly
the trimmed name `"gamma"`. -/
theorem rename_trims_only_and_checks_uniqueness_witness :
    (updateItemName twoZettelDB 1 "zettel" 1 (some (" beta "))).1.success = false
    ∧ (updateItemName twoZettelDB 1 "zettel" 1 (some (" beta "))).2 = twoZettelDB
    ∧ nameOf (updateItemName twoZettelDB 1 "zettel" 2 (some (" gamma "))).2 "zettel" 2
        = some ("gamma") :=
  ⟨(rename_trims_only_and_checks_uniqueness twoZettelDB 1 "zettel" 1 (some (" beta "))).2.1
      (by decide),
   (rename_trims_only_and_checks_uniqueness twoZettelDB 1 "zettel" 1 (some (" beta "))).2.2
      ((rename_trims_only_and_checks_uniqueness twoZettelDB 1 "zettel" 1 (some (" beta "))).2.1
        (by decide)),
   (rename_trims_only_and_checks_uniqueness twoZettelDB 1 "zettel" 2 (some (" gamma "))).1
      (by decide)⟩

/-- C5 counterexample: the leaf `a.mdx` does not end with `".md"`, so the
claim predicts a File named `a.mdx` holding the raw blob; the code's test
is substring containment, so it materializes a Zettel instead — named
`"ax"`, the filename with every `".md"` occurrence removed. -/
theorem leaf_classification_counterexample :
    createFiles rootOnlyDB 1 "a.mdx" "a.mdx" "blob" 1
      = Except.ok (⟨rootOnlyDB.folders, [⟨2, "ax", 1, 1, "blob", false⟩], [], 3⟩,
          ⟨2, "ax", "a.mdx", 1⟩)
    ∧ prefixAt (".md".data.reverse) ("a.mdx".data.reverse) = false :=
  ⟨rfl, by decide⟩

/-- C5 (amended): `create_files` classifies a leaf by substring
containment — when `".md"` occurs anywhere in the filename it creates a
Zettel whose name is the filename with every `".md"` occurrence removed
and whose content is the decoded blob; only filenames without `".md"`
anywhere produce a File storing the raw blob under the unmodified name
(assuming the produced name is free in its uniqueness scope). -/
theorem leaf_classified_by_md_substring (db : DB) (u : Nat) (nm fullPath blob : String)
    (nodeId : Nat) :
    (pyIn ".md" nm = true → zettelNameTaken db u nodeId (pyReplace nm ".md" "") 0 = false →
      createFiles db u nm fullPath blob nodeId
        = Except.ok
            (⟨db.folders,
              db.zettels ++ [⟨db.nextId, pyReplace nm ".md" "", nodeId, u, blob, false⟩],
              db.files, db.nextId + 1⟩,
             ⟨db.nextId, pyReplace nm ".md" "", fullPath, nodeId⟩))
    ∧ (pyIn ".md" nm = false → fileNameTaken db u (some nodeId) nm 0 = false →
        createFiles db u nm fullPath blob nodeId
          = Except.ok
              (⟨db.folders, db.zettels,
                db.files ++ [⟨db.nextId, nm, some nodeId, u, blob⟩], db.nextId + 1⟩,
               ⟨db.nextId, nm, fullPath, nodeId⟩)) := by
  constructor
  · intro hin hnc
    rw [createFiles]
    simp [hin, hnc]
  · intro hin hnc
    rw [createFiles]
    simp [hin, hnc]

/-- Instantiation of the C5 theorem: `x.md` becomes a zettel `x` with the
blob as content, `c.png` becomes a file keeping name and blob. -/
theorem leaf_classified_by_md_substring_witness :
    createFiles rootOnlyDB 1 "x.md" "x.md" "hello" 1
      = Except.ok (⟨rootOnlyDB.folders, [⟨2, "x", 1, 1, "hello", false⟩], [], 3⟩,
          ⟨2, "x", "x.md", 1⟩)
    ∧ createFiles rootOnlyDB 1 "c.png" "c.png" "PNG" 1
      = Except.ok (⟨rootOnlyDB.folders, [], [⟨2, "c.png", some 1, 1, "PNG"⟩], 3⟩,
          ⟨2, "c.png", "c.png", 1⟩) :=
  ⟨(leaf_classified_by_md_substring rootOnlyDB 1 "x.md" "x.md" "hello" 1).1
      (by decide) (by decide),
   (leaf_classified_by_md_substring rootOnlyDB 1 "c.png" "c.png" "PNG" 1).2
      (by decide) (by decide)⟩

/-- The little-endian digit list of `n` evaluates back to `n` whenever the
fuel covers `n`. -/
theorem natDigitsRevAux_foldr : ∀ (fuel n : Nat), n ≤ fuel →
    (natDigitsRevAux fuel n).foldr (fun d acc => acc * 10 + d) 0 = n := by
  intro fuel
  induction fuel with
  | zero =>
      intro n hn
      interval_cases n
      rfl
  | succ m ih =>
      intro n hn
      by_cases h : n < 10
      · simp [natDigitsRevAux, h]
      · rw [natDigitsRevAux]
        simp only [h, if_false]
        rw [List.foldr_cons]
        rw [ih (n / 10) (by omega)]
        omega

/-- Every entry of the digit list is a digit. -/
theorem natDigitsRevAux_lt : ∀ (fuel n : Nat), ∀ d ∈ natDigitsRevAux fuel n, d < 10 := by
  intro fuel
  induction fuel with
  | zero =>
      intro n d hd
      rw [natDigitsRevAux] at hd
      simp at hd
      omega
  | succ m ih =>
      intro n d hd
      rw [natDigitsRevAux] at hd
      by_cases h : n < 10
      · simp [h] at hd
        omega
      · simp only [h, if_false, List.mem_cons] at hd
        rcases hd with hd | hd
        · omega
        · exact ih _ _ hd

/-- The decimal digit list determines the number. -/
theorem natDigitsRev_injective {a b : Nat} (h : natDigitsRev a = natDigitsRev b) : a = b := by
  have ha : (natDigitsRev a).foldr (fun d acc => acc * 10 + d) 0 = a :=
    natDigitsRevAux_foldr a a (le_refl a)
  have hb : (natDigitsRev b).foldr (fun d acc => acc * 10 + d) 0 = b :=
    natDigitsRevAux_foldr b b (le_refl b)
  rw [← ha, ← hb, h]

/-- `Nat.digitChar` is injective on digits. -/
theorem digitChar_injective_lt {a b : Nat} (ha : a < 10) (hb : b < 10)
    (h : Nat.digitChar a = Nat.digitChar b) : a = b := by
  interval_cases a <;> interval_cases b <;> revert h <;> decide

/-- Mapping `digitChar` over digit lists is injective. -/
theorem map_digitChar_injective : ∀ (l1 l2 : List Nat), (∀ d ∈ l1, d < 10) →
    (∀ d ∈ l2, d < 10) → l1.map Nat.digitChar = l2.map Nat.digitChar → l1 = l2 := by
  intro l1
  induction l1 with
  | nil =>
      intro l2 _ _ h
      cases l2 with
      | nil => rfl
      | cons b bs => simp at h
  | cons a as ih =>
      intro l2 h1 h2 h
      cases l2 with
      | nil => simp at h
      | cons b bs =>
          simp only [List.map_cons, List.cons.injEq] at h
          have hd : a = b :=
            digitChar_injective_lt (h1 a (List.mem_cons_self a as))
              (h2 b (List.mem_cons_self b bs)) h.1
          have ht : as = bs :=
            ih bs (fun d hd => h1 d (List.mem_cons_of_mem a hd))
              (fun d hd => h2 d (List.mem_cons_of_mem b hd)) h.2
          rw [hd, ht]

/-- Python `str` on naturals is injective. -/
theorem natStr_injective {a b : Nat} (h : natStr a = natStr b) : a = b := by
  have hdata : ((natDigitsRev a).reverse.map Nat.digitChar)
      = ((natDigitsRev b).reverse.map Nat.digitChar) := congrArg String.data h
  have hrev : (natDigitsRev a).reverse = (natDigitsRev b).reverse := by
    apply map_digitChar_injective
    · intro d hd
      exact natDigitsRevAux_lt a a d (List.mem_reverse.1 hd)
    · intro d hd
      exact natDigitsRevAux_lt b b d (List.mem_reverse.1 hd)
    · exact hdata
  exact natDigitsRev_injective (List.reverse_injective hrev)

/-- The candidate default names are pairwise distinct. -/
theorem mkName_injective (pre : String) : Function.Injective (mkName pre) := by
  intro a b h
  have hdata : (pre ++ "-").data ++ (natStr a).data = (pre ++ "-").data ++ (natStr b).data := by
    have := congrArg String.data h
    simpa [mkName, String.data_append, List.append_assoc] using this
  have : (natStr a).data = (natStr b).data := List.append_cancel_left hdata
  exact natStr_injective (String.ext this)

/-- What a finished allocation loop guarantees: the returned counter is at
least the start, its name is free, and every skipped name was taken. -/
theorem allocAux_some_spec (taken : List String) (pre : String) :
    ∀ (fuel s n : Nat), allocAux taken pre fuel s = some n →
      s ≤ n ∧ mkName pre n ∉ taken ∧ ∀ k, s ≤ k → k < n → mkName pre k ∈ taken := by
  intro fuel
  induction fuel with
  | zero => intro s n h; simp [allocAux] at h
  | succ m ih =>
      intro s n h
      rw [allocAux] at h
      by_cases hs : mkName pre s ∈ taken
      · simp only [hs, if_pos] at h
        rcases ih (s + 1) n h with ⟨h1, h2, h3⟩
        refine ⟨by omega, h2, ?_⟩
        intro k hk1 hk2
        by_cases hks : k = s
        · rw [hks]; exact hs
        · exact h3 k (by omega) hk2
      · simp only [hs, if_neg, if_false] at h
        have hsn : s = n := Option.some.inj h
        subst hsn
        exact ⟨le_refl s, hs, by omega⟩

/-- What an exhausted allocation loop implies: every name in the scanned
window was taken. -/
theorem allocAux_none_mem (taken : List String) (pre : String) :
    ∀ (fuel s : Nat), allocAux taken pre fuel s = none →
      ∀ k, s ≤ k → k < s + fuel → mkName pre k ∈ taken := by
  intro fuel
  induction fuel with
  | zero => intro s _ k h1 h2; omega
  | succ m ih =>
      intro s h k h1 h2
      rw [allocAux] at h
      by_cases hs : mkName pre s ∈ taken
      · simp only [hs, if_pos] at h
        by_cases hks : k = s
        · rw [hks]; exact hs
        · exact ih (s + 1) h k (by omega) (by omega)
      · simp [hs] at h

/-- The allocation loop always finishes within `length + 1` probes: were
every probed name taken, `length + 1` pairwise-distinct names would all
lie in the scanned list. -/
theorem allocDefaultName_isSome (taken : List String) (pre : String) :
    ∃ n, allocDefaultName taken pre = some n := by
  rcases h : allocDefaultName taken pre with _ | n
  · exfalso
    rw [allocDefaultName] at h
    have hall : ∀ k, k ≤ taken.length → mkName pre k ∈ taken := by
      intro k hk
      exact allocAux_none_mem taken pre (taken.length + 1) 0 h k (by omega) (by omega)
    have hnodup : ((List.range (taken.length + 1)).map (mkName pre)).Nodup :=
      (List.nodup_range _).map (mkName_injective pre)
    have hsub : (List.range (taken.length + 1)).map (mkName pre) ⊆ taken := by
      intro x hx
      rcases List.mem_map.1 hx with ⟨k, hk, rfl⟩
      exact hall k (by simpa [List.mem_range, Nat.lt_succ_iff] using hk)
    have hlen := (hnodup.subperm hsub).length_le
    simp at hlen
  · exact ⟨n, rfl⟩

/-- C9: with a valid target folder, `create_zettel` allocates
`new-zettel-{n}` and `create_folder` allocates `new-folder-{n}`, where `n`
is in each case the smallest counter whose name is absent from the scanned
scope `(author, target folder)` — the allocated name is free, every
smaller counter's name was taken, and the new row is inserted with the
allocated name. -/
theorem default_name_allocation_least (db : DB) (u fid : Nat) (t : Folder)
    (ht : findOwnedFolder db u fid = some t) :
    (∃ n, (createZettel db u (some fid)).1.rname = some (mkName ("new-zettel") n)
       ∧ (createZettel db u (some fid)).2.zettels
           = db.zettels ++ [⟨db.nextId, mkName ("new-zettel") n, t.id, u, "", false⟩]
       ∧ mkName ("new-zettel") n ∉ scopedZettelNames db u t.id
       ∧ ∀ m, m < n → mkName ("new-zettel") m ∈ scopedZettelNames db u t.id)
    ∧ (∃ n, (createFolder db u (some fid)).1.rname = some (mkName ("new-folder") n)
       ∧ (createFolder db u (some fid)).2.folders
           = db.folders ++ [⟨db.nextId, mkName ("new-folder") n, some t.id, false, u⟩]
       ∧ mkName ("new-folder") n ∉ scopedFolderNames db u t.id
       ∧ ∀ m, m < n → mkName ("new-folder") m ∈ scopedFolderNames db u t.id) := by
  constructor
  · rcases allocDefaultName_isSome (scopedZettelNames db u t.id) ("new-zettel") with ⟨n, hn⟩
    rcases allocAux_some_spec (scopedZettelNames db u t.id) ("new-zettel")
      ((scopedZettelNames db u t.id).length + 1) 0 n hn with ⟨_, hfree, hmin⟩
    have hez : createZettel db u (some fid)
        = (okEntityResp db.nextId (mkName ("new-zettel") n),
           ⟨db.folders,
            db.zettels ++ [⟨db.nextId, mkName ("new-zettel") n, t.id, u, "", false⟩],
            db.files, db.nextId + 1⟩) := by
      rw [createZettel]
      simp [ht, hn]
    refine ⟨n, ?_, ?_, hfree, ?_⟩
    · rw [hez]
      rfl
    · rw [hez]
    · intro m hm
      exact hmin m (by omega) hm
  · rcases allocDefaultName_isSome (scopedFolderNames db u t.id) ("new-folder") with ⟨n, hn⟩
    rcases allocAux_some_spec (scopedFolderNames db u t.id) ("new-folder")
      ((scopedFolderNames db u t.id).length + 1) 0 n hn with ⟨_, hfree, hmin⟩
    have hef : createFolder db u (some fid)
        = (okEntityResp db.nextId (mkName ("new-folder") n),
           ⟨db.folders ++ [⟨db.nextId, mkName ("new-folder") n, some t.id, false, u⟩],
            db.zettels, db.files, db.nextId + 1⟩) := by
      rw [createFolder]
      simp [ht, hn]
    refine ⟨n, ?_, ?_, hfree, ?_⟩
    · rw [hef]
      rfl
    · rw [hef]
    · intro m hm
      exact hmin m (by omega) hm

/-- Instantiation of the C9 theorem on `allocDB`, whose root scope already
holds `new-zettel-0`, `new-zettel-1` and `new-folder-0`. -/
theorem default_name_allocation_least_witness :
    (∃ n, (createZettel allocDB 1 (some 1)).1.rname = some (mkName ("new-zettel") n)
       ∧ (createZettel allocDB 1 (some 1)).2.zettels
           = allocDB.zettels ++ [⟨allocDB.nextId, mkName ("new-zettel") n, 1, 1, "", false⟩]
       ∧ mkName ("new-zettel") n ∉ scopedZettelNames allocDB 1 1
       ∧ ∀ m, m < n → mkName ("new-zettel") m ∈ scopedZettelNames allocDB 1 1)
    ∧ (∃ n, (createFolder allocDB 1 (some 1)).1.rname = some (mkName ("new-folder") n)
       ∧ (createFolder allocDB 1 (some 1)).2.folders
           = allocDB.folders ++ [⟨allocDB.nextId, mkName ("new-folder") n, some 1, false, 1⟩]
       ∧ mkName ("new-folder") n ∉ scopedFolderNames allocDB 1 1
       ∧ ∀ m, m < n → mkName ("new-folder") m ∈ scopedFolderNames allocDB 1 1) :=
  default_name_allocation_least allocDB 1 1 ⟨1, "root", none, true, 1⟩ (by decide)
